import Mathlib

/-!
# Keyfactor header builder: `GetHeaders`

A shallow embedding of `OAuth Header scripts/Go/get-headers.go` and the
properties of its specification.

Modelling choices.

* A Go `map[string]T` is an association list with pairwise distinct keys
  (`GoMap`).  `m[k] = v` is `GoMap.set`, `m[k]` is `GoMap.get`.
* `Variables` is a `map[string]interface{}`: its values are dynamically
  typed (`Value`).  A single-value type assertion `x.(T)` on a value of another
  dynamic type is a run-time panic; the two-value form `x.(T)` with `ok` is not.
* `GetHeaders` has Go's pair result `(map[string]string, error)`; either
  component may be `nil` (`none`).  A panic is a third kind of result.
* The network is a parameter: `PostForm url form` is what `http.PostForm`
  returns for that request.  The requests handed to it are recorded in the run.
* The response body is given by the JSON text at its start: a `Json` value, or
  the syntax error the decoder reports.  `Decode` adds the limits of
  `encoding/json` on well-formed text: a number that overflows `float64` and
  nesting deeper than `maxNestingDepth` are decode errors.
* Go strings are modelled by Lean strings; `[]byte(s)` is the UTF-8 encoding.
-/

namespace Keyfactor

/-! ## Go maps -/

/-- A Go map with string keys: entries with pairwise distinct keys. -/
structure GoMap (α : Type) where
  entries : List (String × α)
  nodup : (entries.map Prod.fst).Nodup
  deriving DecidableEq

namespace GoMap

variable {α : Type}

/-- The map `make(map[string]T)`. -/
def empty : GoMap α := ⟨[], List.nodup_nil⟩

/-- The Go expression `m[k]` (with `none` for the zero value of an absent key). -/
def get (m : GoMap α) (k : String) : Option α := m.entries.lookup k

/-- The key set of the map. -/
def keys (m : GoMap α) : List String := m.entries.map Prod.fst

/-- The Go statement `m[k] = v`. -/
def set (m : GoMap α) (k : String) (v : α) : GoMap α :=
  ⟨(k, v) :: m.entries.filter (fun e => e.1 != k), by
    rw [List.map_cons, List.nodup_cons]
    refine ⟨?_, List.Nodup.sublist ((List.filter_sublist _).map Prod.fst) m.nodup⟩
    intro hk
    obtain ⟨e, he, hek⟩ := List.mem_map.1 hk
    have := (List.mem_filter.1 he).2
    simp [hek] at this⟩

/-- The loop `for k, v := range src` with body `dst[k] = v`, visiting `src` in list order. -/
def copyInto (dst : GoMap α) (src : List (String × α)) : GoMap α :=
  src.foldl (fun h e => h.set e.1 e.2) dst

end GoMap

/-! ## Dynamically typed configuration -/

/-- The dynamic values an `interface{}` entry of `Variables` can hold. -/
inductive Value where
  /-- A Go `string`. -/
  | str (s : String)
  /-- A Go `map[string]string`. -/
  | strMap (m : GoMap String)
  /-- A value of any other dynamic type (an `int`, a `bool`, `nil`, ...). -/
  | other

/-- The global `Variables`, a `map[string]interface{}`. -/
abbrev Config := List (String × Value)

/-- The Go expression `Variables[k]`; `none` is the nil interface of an absent key. -/
def index (Variables : Config) (k : String) : Option Value := Variables.lookup k

/-- The interface comparison `x == "lit"`: true only for a string of that value. -/
def eqString (x : Option Value) (lit : String) : Bool :=
  match x with
  | some (.str s) => s == lit
  | _ => false

/-- The type assertion `x.(string)`; `none` when the dynamic type is not `string`. -/
def assertString (x : Option Value) : Option String :=
  match x with
  | some (.str s) => some s
  | _ => none

/-- The type assertion `x.(map[string]string)`. -/
def assertStrMap (x : Option Value) : Option (GoMap String) :=
  match x with
  | some (.strMap m) => some m
  | _ => none

/-! ## Errors -/

/-- Go `error` values that `GetHeaders` can return. -/
inductive GoError where
  /-- An error returned by `http.PostForm` (the request did not complete). -/
  | transport (msg : String)
  /-- An error returned by `json.Decoder.Decode`. -/
  | decode (msg : String)
  /-- The value `errors.New(text)`. -/
  | new (text : String)
  deriving DecidableEq

/-- The method `err.Error()`. -/
def GoError.Error : GoError → String
  | .transport msg => msg
  | .decode msg => msg
  | .new text => text

/-- The error of line 77, named `TokenRequestRejected` in the specification. -/
def TokenRequestRejected : GoError := .new "failed to fetch OAuth token: invalid response"

/-- The error of line 87, named `MissingAccessToken` in the specification. -/
def MissingAccessToken : GoError :=
  .new "failed to fetch OAuth token: no access_token in response"

/-- The error of line 115, named `InvalidAuthMethod` in the specification. -/
def InvalidAuthMethod : GoError := .new "invalid Auth_Method specified"

/-! ## JSON and HTTP -/

/-- A JSON value. An object keeps its members in textual order. A number
carries its source text and whether `strconv.ParseFloat(literal, 64)` accepts
it, which it does unless the number overflows `float64` (as `1e999` does). -/
inductive Json where
  | null
  | bool (b : Bool)
  | num (literal : String) (fitsFloat64 : Bool)
  | str (s : String)
  | arr (items : List Json)
  | obj (members : List (String × Json))

/-- The value of the last entry of a list of members that has the given name. -/
def lastNamed {α : Type} : List (String × α) → String → Option α
  | [], _ => none
  | (n, v) :: rest, k =>
    match lastNamed rest k with
    | some w => some w
    | none => if n = k then some v else none

/-- The member of a JSON object that `encoding/json` reports for a name: when a
name is repeated, the last member so named. -/
def Json.member (members : List (String × Json)) (k : String) : Option Json :=
  lastNamed members k

/-- The word by which `encoding/json` names the kind of a value in its errors. -/
def Json.kind : Json → String
  | .null => "null"
  | .bool _ => "bool"
  | .num _ _ => "number"
  | .str _ => "string"
  | .arr _ => "array"
  | .obj _ => "object"

mutual
/-- The source text of the first number of a value, in textual order, that
does not fit `float64`: storing it into an `interface{}` is the error that
`encoding/json` saves and returns at the end of the decoding. -/
def Json.overflow : Json → Option String
  | .num literal fitsFloat64 => if fitsFloat64 then none else some literal
  | .arr items => Json.overflowItems items
  | .obj members => Json.overflowMembers members
  | _ => none
/-- The first overflowing number among the items of an array. -/
def Json.overflowItems : List Json → Option String
  | [] => none
  | j :: rest =>
    match Json.overflow j with
    | some literal => some literal
    | none => Json.overflowItems rest
/-- The first overflowing number among the members of an object. -/
def Json.overflowMembers : List (String × Json) → Option String
  | [] => none
  | (_, j) :: rest =>
    match Json.overflow j with
    | some literal => some literal
    | none => Json.overflowMembers rest
end

mutual
/-- The nesting depth of a value: the number of arrays and objects that are
open at its deepest point. -/
def Json.depth : Json → Nat
  | .arr items => 1 + Json.depthItems items
  | .obj members => 1 + Json.depthMembers members
  | _ => 0
/-- The greatest depth among the items of an array. -/
def Json.depthItems : List Json → Nat
  | [] => 0
  | j :: rest => max (Json.depth j) (Json.depthItems rest)
/-- The greatest depth among the members of an object. -/
def Json.depthMembers : List (String × Json) → Nat
  | [] => 0
  | (_, j) :: rest => max (Json.depth j) (Json.depthMembers rest)
end

/-- The constant `maxNestingDepth` of the scanner of `encoding/json`. -/
def maxNestingDepth : Nat := 10000

/-- The values that `encoding/json` decodes into an `interface{}` without
error: nested no deeper than the scanner allows, and without a number that
overflows `float64`. -/
def Json.Decodable (j : Json) : Prop :=
  j.depth ≤ maxNestingDepth ∧ j.overflow = none

/-- An HTTP response: its status code and what stands at the start of its
body, either the text of a JSON value or something else, for which the decoder
reports a syntax error with the given message. -/
structure Response where
  StatusCode : Nat
  Body : Except String Json

/-- The call `json.NewDecoder(body).Decode(&responseBody)` for a
`responseBody` of type `map[string]interface{}` that is nil before the call.
The scanner rejects text nested deeper than `maxNestingDepth`; `null` leaves
the map nil; a value that is not an object is a type error; in an object a
number that overflows `float64` is a type error, and otherwise each member is
stored under its name in textual order. -/
def Decode (body : Except String Json) : Except GoError (GoMap Json) :=
  match body with
  | .error msg => .error (.decode msg)
  | .ok j =>
    if maxNestingDepth < j.depth then .error (.decode "exceeded max depth")
    else
    match j with
    | .obj members =>
      match Json.overflowMembers members with
      | some literal => .error (.decode ("json: cannot unmarshal number " ++ literal ++
          " into Go value of type float64"))
      | none => .ok (GoMap.empty.copyInto members)
    | .null => .ok GoMap.empty
    | other => .error (.decode ("json: cannot unmarshal " ++ other.kind ++
        " into Go value of type map[string]interface \x7b\x7d"))

/-- The type assertion `x.(string)` on a decoded JSON value. -/
def jsonString (x : Option Json) : Option String :=
  match x with
  | some (.str s) => some s
  | _ => none

/-- The form `url.Values`, a `map[string][]string`. -/
abbrev Values := GoMap (List String)

/-- The method `url.Values.Set`. -/
def Values.Set (v : Values) (key value : String) : Values := GoMap.set v key [value]

/-- An outbound request made by `http.PostForm`. -/
structure Request where
  url : String
  contentType : String
  form : Values
  deriving DecidableEq

/-- The behaviour of the network for one call of `http.PostForm(url, form)`. -/
abbrev Transport := String → Values → Except String Response

/-- The constant `http.StatusOK`. -/
def StatusOK : Nat := 200

/-! ## Base64 and UTF-8 -/

/-- The alphabet of `base64.StdEncoding`. -/
def encodeStd : List Char :=
  "ABCDEFGHIJKLMNOPQRSTUVWXYZabcdefghijklmnopqrstuvwxyz0123456789+/".toList

/-- The character `enc.encode[i]`. -/
def encodeChar (i : Nat) : Char := encodeStd.getD i 'A'

/-- The loop and tail handling of `base64.StdEncoding.Encode`, with padding `=`. -/
def Encode : List Nat → List Char
  | b0 :: b1 :: b2 :: rest =>
    let val := b0 * 65536 + b1 * 256 + b2
    encodeChar (val / 262144 % 64) :: encodeChar (val / 4096 % 64) ::
      encodeChar (val / 64 % 64) :: encodeChar (val % 64) :: Encode rest
  | [b0, b1] =>
    let val := b0 * 65536 + b1 * 256
    [encodeChar (val / 262144 % 64), encodeChar (val / 4096 % 64),
      encodeChar (val / 64 % 64), '=']
  | [b0] =>
    let val := b0 * 65536
    [encodeChar (val / 262144 % 64), encodeChar (val / 4096 % 64), '=', '=']
  | [] => []

/-- The call `base64.StdEncoding.EncodeToString(src)`. -/
def EncodeToString (src : List Nat) : String := String.mk (Encode src)

/-- The conversion `[]byte(s)`: the UTF-8 bytes of the string. -/
def bytes (s : String) : List Nat := s.toUTF8.data.toList.map UInt8.toNat

/-! ## The run of `GetHeaders` -/

/-- How a call ends: by returning Go's pair, or by a run-time panic. -/
inductive Result where
  | returned (headers : Option (GoMap String)) (err : Option GoError)
  | panicked

/-- Everything observable of one call. -/
structure Run where
  /-- The calls of `http.PostForm`, in order; nothing else in `GetHeaders`
  reaches the network. -/
  requests : List Request
  /-- The lines written to standard output. -/
  stdout : List String
  result : Result

/-- The form built on lines 58 to 68. -/
def authBody (Variables : Config) (clientId clientSecret : String) : Values :=
  let b0 : Values := GoMap.empty
  let b1 := b0.Set "grant_type" "client_credentials"
  let b2 := b1.Set "client_id" clientId
  let b3 := b2.Set "client_secret" clientSecret
  let b4 :=
    match assertString (index Variables "scope") with
    | some scope => if scope != "" then b3.Set "scope" scope else b3
    | none => b3
  match assertString (index Variables "audience") with
  | some audience => if audience != "" then b4.Set "audience" audience else b4
  | none => b4

/-- Lines 91 to 96 and 105 to 110: copy the global headers, then set the two
computed headers. -/
def buildHeaders (global : GoMap String) (authorization apiVersion : String) : GoMap String :=
  let headers := GoMap.empty.copyInto global.entries
  let headers := headers.set "Authorization" authorization
  headers.set "x-keyfactor-api-version" apiVersion

/-- The function `GetHeaders` of `get-headers.go`, over the configuration
`Variables` and the network behaviour `PostForm`. -/
def GetHeaders (Variables : Config) (PostForm : Transport) (apiVersion : String) : Run :=
  if eqString (index Variables "Auth_Method") "oauth" then
    match assertString (index Variables "client_id") with
    | none => ⟨[], [], .panicked⟩
    | some clientId =>
    match assertString (index Variables "client_secret") with
    | none => ⟨[], [], .panicked⟩
    | some clientSecret =>
    let body := authBody Variables clientId clientSecret
    match assertString (index Variables "token_url") with
    | none => ⟨[], [], .panicked⟩
    | some tokenUrl =>
    let req : Request := ⟨tokenUrl, "application/x-www-form-urlencoded", body⟩
    match PostForm tokenUrl body with
    | .error msg =>
      let err := GoError.transport msg
      ⟨[req], ["Failed to fetch OAuth token: " ++ err.Error ++ "\n"], .returned none (some err)⟩
    | .ok resp =>
    if resp.StatusCode != StatusOK then
      ⟨[req], [], .returned none (some TokenRequestRejected)⟩
    else
    match Decode resp.Body with
    | .error err => ⟨[req], [], .returned none (some err)⟩
    | .ok responseBody =>
    match jsonString (responseBody.get "access_token") with
    | none => ⟨[req], [], .returned none (some MissingAccessToken)⟩
    | some token =>
    let out := ["Access Token received successfully.\n"]
    match assertStrMap (index Variables "GlobalHeaders") with
    | none => ⟨[req], out, .panicked⟩
    | some global =>
      ⟨[req], out, .returned (some (buildHeaders global ("Bearer " ++ token) apiVersion)) none⟩
  else if eqString (index Variables "Auth_Method") "basic" then
    match assertString (index Variables "keyfactorUser") with
    | none => ⟨[], [], .panicked⟩
    | some user =>
    match assertString (index Variables "keyfactorPassword") with
    | none => ⟨[], [], .panicked⟩
    | some password =>
    let userPass := user ++ ":" ++ password
    let authInfo := EncodeToString (bytes userPass)
    match assertStrMap (index Variables "GlobalHeaders") with
    | none => ⟨[], [], .panicked⟩
    | some global =>
      ⟨[], [], .returned (some (buildHeaders global ("Basic " ++ authInfo) apiVersion)) none⟩
  else
    ⟨[], [], .returned none (some InvalidAuthMethod)⟩

/-! ## Base64 as RFC 4648 states it -/

/-- The eight bits of a byte, most significant first. -/
def byteBits (b : Nat) : List Bool :=
  [b / 128 % 2 == 1, b / 64 % 2 == 1, b / 32 % 2 == 1, b / 16 % 2 == 1,
   b / 8 % 2 == 1, b / 4 % 2 == 1, b / 2 % 2 == 1, b % 2 == 1]

/-- The number a bit string denotes, most significant bit first. -/
def bitsValue (bits : List Bool) : Nat :=
  bits.foldl (fun acc b => 2 * acc + (if b then 1 else 0)) 0

/-- The 6-bit groups of a bit string, the last one padded on the right with
zero bits. -/
def sextets : List Bool → List Nat
  | [] => []
  | a :: b :: c :: d :: e :: f :: rest => bitsValue [a, b, c, d, e, f] :: sextets rest
  | short => [bitsValue (short ++ List.replicate (6 - short.length) false)]

/-- Standard padded Base64 following the words of RFC 4648: the input bit
stream is cut into 6-bit groups, each group indexes the alphabet, and `=` is
appended until the length is a multiple of four. -/
def base64Std (src : List Nat) : String :=
  let body := (sextets (src.flatMap byteBits)).map encodeChar
  String.mk (body ++ List.replicate ((4 - body.length % 4) % 4) '=')

/-! ## Well-formed configurations -/

/-- The entries that the selected branch reads with a single-value type
assertion hold values of the asserted type. -/
def WellFormed (Variables : Config) : Prop :=
  (eqString (index Variables "Auth_Method") "oauth" = true →
    (∃ s, index Variables "client_id" = some (.str s)) ∧
    (∃ s, index Variables "client_secret" = some (.str s)) ∧
    (∃ s, index Variables "token_url" = some (.str s)) ∧
    (∃ m, index Variables "GlobalHeaders" = some (.strMap m))) ∧
  (eqString (index Variables "Auth_Method") "oauth" = false →
    eqString (index Variables "Auth_Method") "basic" = true →
    (∃ s, index Variables "keyfactorUser" = some (.str s)) ∧
    (∃ s, index Variables "keyfactorPassword" = some (.str s)) ∧
    (∃ m, index Variables "GlobalHeaders" = some (.strMap m)))

/-! ## Concrete configurations and token endpoints -/

/-- The global headers of the source file. -/
def sampleHeaders : GoMap String :=
  ⟨[("Content-Type", "application/json"), ("x-keyfactor-requested-with", "APIClient")],
    by decide⟩

/-- The literal value of `Variables` in the source file (lines 14 to 31). -/
def Variables : Config :=
  [("Auth_Method", .str "oauth"),
   ("keyfactorUser", .str "username"),
   ("keyfactorPassword", .str "password"),
   ("client_id", .str "<ClientID>"),
   ("client_secret", .str "<ClientSecret>"),
   ("token_url", .str "<TokenURL>"),
   ("scope", .str "<SCOPE>"),
   ("audience", .str "<SCOPE>"),
   ("GlobalHeaders", .strMap sampleHeaders)]

/-- Global headers that already carry an `Authorization` entry. -/
def clashHeaders : GoMap String :=
  ⟨[("Authorization", "custom"), ("Content-Type", "application/json")], by decide⟩

/-- A Basic configuration with user `u` and password `p`. -/
def basicConfig (global : GoMap String) : Config :=
  [("Auth_Method", .str "basic"), ("keyfactorUser", .str "u"),
   ("keyfactorPassword", .str "p"), ("GlobalHeaders", .strMap global)]

/-- An OAuth configuration with an empty scope and a non-empty audience. -/
def oauthConfig : Config :=
  [("Auth_Method", .str "oauth"), ("client_id", .str "id"), ("client_secret", .str "secret"),
   ("token_url", .str "https://idp.example/token"), ("scope", .str ""),
   ("audience", .str "api"), ("GlobalHeaders", .strMap sampleHeaders)]

/-- A configuration that names an unsupported method. -/
def ldapConfig : Config :=
  [("Auth_Method", .str "ldap"), ("GlobalHeaders", .strMap sampleHeaders)]

/-- An OAuth configuration without a `client_id` entry. -/
def noClientIdConfig : Config :=
  [("Auth_Method", .str "oauth"), ("client_secret", .str "secret"),
   ("token_url", .str "https://idp.example/token"), ("GlobalHeaders", .strMap sampleHeaders)]

/-- A token endpoint that answers every request with the given status and body. -/
def answering (code : Nat) (body : Except String Json) : Transport :=
  fun _ _ => .ok ⟨code, body⟩

/-- A network on which no request completes. -/
def offline : Transport :=
  fun _ _ => .error "dial tcp: connection refused"

/-- The members of the body with `access_token` equal to `abc123`. -/
def tokenMembers : List (String × Json) := [("access_token", .str "abc123")]

/-- The members of the body with only `foo` equal to `bar`. -/
def fooMembers : List (String × Json) := [("foo", .str "bar")]

/-- The members of the body with `access_token` equal to `abc123` and
`expires_in` equal to `1e999`, a number that overflows `float64`. -/
def expiresMembers : List (String × Json) :=
  [("access_token", .str "abc123"), ("expires_in", .num "1e999" false)]

/-- The members of the body whose `access_token` is the number `1e999`. -/
def numericTokenMembers : List (String × Json) := [("access_token", .num "1e999" false)]

/-- The error of `encoding/json` for the number `1e999`. -/
def overflowError : GoError :=
  .decode "json: cannot unmarshal number 1e999 into Go value of type float64"

/-- The headers returned for `basicConfig clashHeaders` and version `2`. -/
def clashResult : GoMap String := buildHeaders clashHeaders "Basic dTpw" "2"

/-- The request that `GetHeaders` issues under `oauthConfig`. -/
def oauthRequest : Request :=
  ⟨"https://idp.example/token", "application/x-www-form-urlencoded",
    authBody oauthConfig "id" "secret"⟩

/-! ## Facts about Go maps -/

theorem lookup_filter_ne {α : Type} (es : List (String × α)) (k k' : String) (h : k' ≠ k) :
    List.lookup k' (es.filter (fun e => e.1 != k)) = List.lookup k' es := by
  induction es with
  | nil => rfl
  | cons e es ih =>
    obtain ⟨n, v⟩ := e
    by_cases hn : n = k
    · subst hn
      have hk : (k' == n) = false := by simpa using h
      simp [List.filter_cons, List.lookup_cons, hk, ih]
    · have hn' : (n != k) = true := by simpa using hn
      simp only [List.filter_cons, hn', if_true, List.lookup_cons, ih]

theorem GoMap.get_empty {α : Type} (k : String) : (GoMap.empty : GoMap α).get k = none := rfl

theorem GoMap.get_set_self {α : Type} (m : GoMap α) (k : String) (v : α) :
    (m.set k v).get k = some v := by
  simp [GoMap.get, GoMap.set, List.lookup_cons]

theorem GoMap.get_set_ne {α : Type} (m : GoMap α) (k k' : String) (v : α) (h : k' ≠ k) :
    (m.set k v).get k' = m.get k' := by
  have hk : (k' == k) = false := by simpa using h
  simp [GoMap.get, GoMap.set, List.lookup_cons, hk, lookup_filter_ne _ _ _ h]

theorem GoMap.mem_keys_set {α : Type} (m : GoMap α) (k k' : String) (v : α) :
    k' ∈ (m.set k v).keys ↔ k' = k ∨ k' ∈ m.keys := by
  simp only [GoMap.keys, GoMap.set, List.map_cons, List.mem_cons, List.mem_map,
    List.mem_filter]
  constructor
  · rintro (h | ⟨e, ⟨he, -⟩, rfl⟩)
    · exact Or.inl h
    · exact Or.inr ⟨e, he, rfl⟩
  · rintro (h | ⟨e, he, rfl⟩)
    · exact Or.inl h
    · by_cases hk : e.1 = k
      · exact Or.inl hk
      · exact Or.inr ⟨e, ⟨he, by simpa using hk⟩, rfl⟩

theorem GoMap.mem_keys_iff {α : Type} (m : GoMap α) (k : String) :
    k ∈ m.keys ↔ ∃ v, m.get k = some v := by
  obtain ⟨es, hnd⟩ := m
  simp only [GoMap.keys, GoMap.get]
  clear hnd
  induction es with
  | nil => simp
  | cons e es ih =>
    obtain ⟨n, v⟩ := e
    by_cases hk : k = n
    · subst hk
      simp [List.lookup_cons]
    · have hk' : (k == n) = false := by simpa using hk
      simp [List.lookup_cons, hk', hk, ← ih]

theorem GoMap.get_copyInto {α : Type} (src : List (String × α)) (dst : GoMap α) (k : String) :
    (dst.copyInto src).get k = (lastNamed src k).orElse (fun _ => dst.get k) := by
  induction src generalizing dst with
  | nil => rfl
  | cons e es ih =>
    obtain ⟨n, v⟩ := e
    have hstep : GoMap.copyInto dst ((n, v) :: es) = GoMap.copyInto (dst.set n v) es := rfl
    rw [hstep, ih, lastNamed]
    cases hl : lastNamed es k with
    | some w => rfl
    | none =>
      by_cases hk : n = k
      · subst hk
        simp [GoMap.get_set_self]
      · have hk' : k ≠ n := fun h => hk h.symm
        simp [hk, GoMap.get_set_ne _ _ _ _ hk']

theorem mem_of_lookup {α : Type} (es : List (String × α)) (k : String) (w : α)
    (h : List.lookup k es = some w) : (k, w) ∈ es := by
  induction es with
  | nil => simp at h
  | cons e es ih =>
    obtain ⟨n, v⟩ := e
    rw [List.lookup_cons] at h
    by_cases hk : k = n
    · subst hk
      simp at h
      simp [h]
    · have hk' : (k == n) = false := by simpa using hk
      simp only [hk'] at h
      exact List.mem_cons_of_mem _ (ih h)

theorem lastNamed_eq_lookup {α : Type} (es : List (String × α)) (k : String)
    (hnd : (es.map Prod.fst).Nodup) : lastNamed es k = List.lookup k es := by
  induction es with
  | nil => rfl
  | cons e es ih =>
    obtain ⟨n, v⟩ := e
    rw [List.map_cons, List.nodup_cons] at hnd
    rw [lastNamed, ih hnd.2, List.lookup_cons]
    by_cases hk : k = n
    · subst hk
      have hnone : List.lookup k es = none := by
        cases hl : List.lookup k es with
        | none => rfl
        | some w =>
          exact absurd (List.mem_map.2 ⟨(k, w), mem_of_lookup _ _ _ hl, rfl⟩) hnd.1
      simp [hnone]
    · have hk' : (k == n) = false := by simpa using hk
      have hk'' : ¬ n = k := fun h => hk h.symm
      cases hl : List.lookup k es <;> simp [hk', hk'']

theorem GoMap.get_copy {α : Type} (src : GoMap α) (k : String) :
    (GoMap.empty.copyInto src.entries).get k = src.get k := by
  rw [GoMap.get_copyInto, lastNamed_eq_lookup _ _ src.nodup, GoMap.get_empty]
  cases h : List.lookup k src.entries <;> simp [GoMap.get, h]

/-! ## The named errors -/

theorem named_errors_distinct :
    TokenRequestRejected ≠ MissingAccessToken ∧ TokenRequestRejected ≠ InvalidAuthMethod ∧
    MissingAccessToken ≠ InvalidAuthMethod ∧
    (∀ msg, GoError.transport msg ≠ TokenRequestRejected ∧
      GoError.transport msg ≠ MissingAccessToken ∧ GoError.transport msg ≠ InvalidAuthMethod) ∧
    (∀ msg, GoError.decode msg ≠ TokenRequestRejected ∧
      GoError.decode msg ≠ MissingAccessToken ∧ GoError.decode msg ≠ InvalidAuthMethod) := by
  refine ⟨by decide, by decide, by decide, fun msg => ⟨?_, ?_, ?_⟩, fun msg => ⟨?_, ?_, ?_⟩⟩ <;>
    intro h <;> cases h

/-! ## The Go encoder computes RFC 4648 Base64 -/

theorem base64Std_samples :
    base64Std [] = "" ∧ base64Std (bytes "f") = "Zg==" ∧ base64Std (bytes "fo") = "Zm8=" ∧
    base64Std (bytes "foo") = "Zm9v" ∧ base64Std (bytes "foob") = "Zm9vYg==" ∧
    base64Std (bytes "fooba") = "Zm9vYmE=" ∧ base64Std (bytes "foobar") = "Zm9vYmFy" := by
  decide

theorem EncodeToString_samples :
    EncodeToString [] = "" ∧ EncodeToString (bytes "f") = "Zg==" ∧
    EncodeToString (bytes "fo") = "Zm8=" ∧ EncodeToString (bytes "foo") = "Zm9v" ∧
    EncodeToString (bytes "foob") = "Zm9vYg==" ∧ EncodeToString (bytes "fooba") = "Zm9vYmE=" ∧
    EncodeToString (bytes "foobar") = "Zm9vYmFy" ∧
    EncodeToString [251, 255, 190] = "+/++" := by
  decide

theorem toNat_bit (x : Nat) : (x % 2 == 1).toNat = x % 2 := by
  by_cases h : x % 2 = 1
  · simp [h]
  · have h0 : x % 2 = 0 := by omega
    simp [h0]

theorem bitsValue_six (a b c d e f : Bool) :
    bitsValue [a, b, c, d, e, f] =
      32 * a.toNat + 16 * b.toNat + 8 * c.toNat + 4 * d.toNat + 2 * e.toNat + f.toNat := by
  cases a <;> cases b <;> cases c <;> cases d <;> cases e <;> cases f <;> rfl

theorem sextets_chunk (b0 b1 b2 : Nat) (rest : List Bool)
    (h0 : b0 < 256) (h1 : b1 < 256) (h2 : b2 < 256) :
    sextets (byteBits b0 ++ (byteBits b1 ++ (byteBits b2 ++ rest))) =
      (b0 * 65536 + b1 * 256 + b2) / 262144 % 64 :: (b0 * 65536 + b1 * 256 + b2) / 4096 % 64 ::
      (b0 * 65536 + b1 * 256 + b2) / 64 % 64 :: (b0 * 65536 + b1 * 256 + b2) % 64 ::
      sextets rest := by
  simp only [byteBits, List.cons_append, List.nil_append, sextets, bitsValue_six, toNat_bit]
  refine congrArg₂ _ (by omega) (congrArg₂ _ (by omega) (congrArg₂ _ (by omega)
    (congrArg₂ _ (by omega) rfl)))

theorem sextets_tail2 (b0 b1 : Nat) (h0 : b0 < 256) (h1 : b1 < 256) :
    sextets (byteBits b0 ++ byteBits b1) =
      [(b0 * 65536 + b1 * 256) / 262144 % 64, (b0 * 65536 + b1 * 256) / 4096 % 64,
        (b0 * 65536 + b1 * 256) / 64 % 64] := by
  have hs : sextets (byteBits b0 ++ byteBits b1) =
      [bitsValue [b0 / 128 % 2 == 1, b0 / 64 % 2 == 1, b0 / 32 % 2 == 1, b0 / 16 % 2 == 1,
          b0 / 8 % 2 == 1, b0 / 4 % 2 == 1],
        bitsValue [b0 / 2 % 2 == 1, b0 % 2 == 1, b1 / 128 % 2 == 1, b1 / 64 % 2 == 1,
          b1 / 32 % 2 == 1, b1 / 16 % 2 == 1],
        bitsValue [b1 / 8 % 2 == 1, b1 / 4 % 2 == 1, b1 / 2 % 2 == 1, b1 % 2 == 1,
          false, false]] := rfl
  rw [hs]
  simp only [bitsValue_six, toNat_bit, Bool.toNat_false]
  refine congrArg₂ _ (by omega) (congrArg₂ _ (by omega) (congrArg₂ _ (by omega) rfl))

theorem sextets_tail1 (b0 : Nat) (h0 : b0 < 256) :
    sextets (byteBits b0) = [b0 * 65536 / 262144 % 64, b0 * 65536 / 4096 % 64] := by
  have hs : sextets (byteBits b0) =
      [bitsValue [b0 / 128 % 2 == 1, b0 / 64 % 2 == 1, b0 / 32 % 2 == 1, b0 / 16 % 2 == 1,
          b0 / 8 % 2 == 1, b0 / 4 % 2 == 1],
        bitsValue [b0 / 2 % 2 == 1, b0 % 2 == 1, false, false, false, false]] := rfl
  rw [hs]
  simp only [bitsValue_six, toNat_bit, Bool.toNat_false]
  refine congrArg₂ _ (by omega) (congrArg₂ _ (by omega) rfl)

theorem Encode_eq_sextets (src : List Nat) (h : ∀ b ∈ src, b < 256) :
    Encode src = (sextets (src.flatMap byteBits)).map encodeChar ++
      List.replicate
        ((4 - ((sextets (src.flatMap byteBits)).map encodeChar).length % 4) % 4) '=' := by
  induction src using Encode.induct with
  | case1 b0 b1 b2 rest ih =>
    have h0 : b0 < 256 := h b0 (by simp)
    have h1 : b1 < 256 := h b1 (by simp)
    have h2 : b2 < 256 := h b2 (by simp)
    have hr : ∀ b ∈ rest, b < 256 := fun b hb => h b (by simp [hb])
    have hmod : ∀ n : Nat, (n + 1 + 1 + 1 + 1) % 4 = n % 4 := fun n => by omega
    rw [Encode, ih hr]
    simp only [List.flatMap_cons, sextets_chunk _ _ _ _ h0 h1 h2, List.map_cons,
      List.length_cons, List.cons_append, hmod]
  | case2 b0 b1 =>
    have h0 : b0 < 256 := h b0 (by simp)
    have h1 : b1 < 256 := h b1 (by simp)
    simp [Encode, List.flatMap_cons, sextets_tail2 _ _ h0 h1]
  | case3 b0 =>
    have h0 : b0 < 256 := h b0 (by simp)
    simp [Encode, List.flatMap_cons, sextets_tail1 _ h0]
  | case4 => simp [Encode, sextets]

theorem bytes_lt (s : String) : ∀ b ∈ bytes s, b < 256 := by
  intro b hb
  obtain ⟨x, -, rfl⟩ := List.mem_map.1 hb
  exact x.val.isLt

theorem EncodeToString_bytes (s : String) : EncodeToString (bytes s) = base64Std (bytes s) := by
  simp only [EncodeToString, base64Std, Encode_eq_sextets _ (bytes_lt s)]

/-! ## Type assertions and decoding -/

theorem eqString_iff (x : Option Value) (lit : String) :
    eqString x lit = true ↔ x = some (.str lit) := by
  unfold eqString
  split <;> simp_all

theorem assertString_iff (x : Option Value) (s : String) :
    assertString x = some s ↔ x = some (.str s) := by
  unfold assertString
  split <;> simp_all

theorem assertStrMap_iff (x : Option Value) (m : GoMap String) :
    assertStrMap x = some m ↔ x = some (.strMap m) := by
  unfold assertStrMap
  split <;> simp_all

theorem jsonString_iff (x : Option Json) (s : String) :
    jsonString x = some s ↔ x = some (.str s) := by
  unfold jsonString
  split <;> simp_all

theorem get_copyInto_empty (members : List (String × Json)) (k : String) :
    (GoMap.empty.copyInto members).get k = Json.member members k := by
  rw [GoMap.get_copyInto, GoMap.get_empty, Json.member]
  cases lastNamed members k <;> rfl

theorem Decode_obj (members : List (String × Json)) (hd : Json.Decodable (.obj members)) :
    ∃ m, Decode (.ok (.obj members)) = .ok m ∧ ∀ k, m.get k = Json.member members k := by
  have h1 : ¬ maxNestingDepth < (Json.obj members).depth := Nat.not_lt.2 hd.1
  have h2 : Json.overflowMembers members = none := by
    have := hd.2
    rwa [Json.overflow] at this
  refine ⟨GoMap.empty.copyInto members, ?_, get_copyInto_empty members⟩
  simp only [Decode, h1, if_false, h2]

theorem Decode_samples :
    Decode (.ok (.arr [])) = .error (.decode
      "json: cannot unmarshal array into Go value of type map[string]interface \x7b\x7d") ∧
    Decode (.ok (.obj [("a", .arr [.num "1" true, .obj [("b", .num "1e999" false)]])]))
      = .error overflowError ∧
    Decode (.error "unexpected EOF") = .error (.decode "unexpected EOF") ∧
    (∃ m, Decode (.ok (.obj [("a", .num "1" true), ("a", .str "x")])) = .ok m ∧
      jsonString (m.get "a") = some "x") :=
  ⟨rfl, rfl, rfl, _, rfl, rfl⟩

theorem Decode_obj_iff (members : List (String × Json)) :
    (∃ m, Decode (.ok (.obj members)) = .ok m) ↔ Json.Decodable (.obj members) := by
  constructor
  · rintro ⟨m, hm⟩
    by_cases h1 : maxNestingDepth < (Json.obj members).depth
    · simp [Decode, h1] at hm
    · cases h2 : Json.overflowMembers members with
      | none => exact ⟨Nat.not_lt.1 h1, by rw [Json.overflow]; exact h2⟩
      | some literal => simp [Decode, h1, h2] at hm
  · intro hd
    obtain ⟨m, hm, -⟩ := Decode_obj members hd
    exact ⟨m, hm⟩

theorem Decode_ok_inv (body : Except String Json) (m : GoMap Json) (k : String) (j : Json)
    (hd : Decode body = .ok m) (hk : m.get k = some j) :
    ∃ members, body = .ok (.obj members) ∧ Json.member members k = some j := by
  cases body with
  | error msg => simp [Decode] at hd
  | ok v =>
    by_cases h1 : maxNestingDepth < v.depth
    · simp [Decode, h1] at hd
    · cases v with
      | obj members =>
        cases h2 : Json.overflowMembers members with
        | some literal => simp [Decode, h1, h2] at hd
        | none =>
          simp only [Decode, h1, if_false, h2] at hd
          injection hd with hd
          refine ⟨members, rfl, ?_⟩
          rw [← hk, ← hd, get_copyInto_empty]
      | null =>
        simp only [Decode, h1, if_false] at hd
        injection hd with hd
        rw [← hd, GoMap.get_empty] at hk
        cases hk
      | bool b => simp [Decode, h1] at hd
      | num literal fits => simp [Decode, h1] at hd
      | str t => simp [Decode, h1] at hd
      | arr items => simp [Decode, h1] at hd

/-! ## The assembled header map -/

theorem buildHeaders_authorization (global : GoMap String) (authorization apiVersion : String) :
    (buildHeaders global authorization apiVersion).get "Authorization" = some authorization := by
  unfold buildHeaders
  rw [GoMap.get_set_ne _ _ _ _ (by decide), GoMap.get_set_self]

theorem buildHeaders_version (global : GoMap String) (authorization apiVersion : String) :
    (buildHeaders global authorization apiVersion).get "x-keyfactor-api-version"
      = some apiVersion := by
  unfold buildHeaders
  rw [GoMap.get_set_self]

theorem buildHeaders_other (global : GoMap String) (authorization apiVersion k : String)
    (h1 : k ≠ "Authorization") (h2 : k ≠ "x-keyfactor-api-version") :
    (buildHeaders global authorization apiVersion).get k = global.get k := by
  unfold buildHeaders
  rw [GoMap.get_set_ne _ _ _ _ h2, GoMap.get_set_ne _ _ _ _ h1, GoMap.get_copy]

theorem buildHeaders_keys (global : GoMap String) (authorization apiVersion k : String) :
    k ∈ (buildHeaders global authorization apiVersion).keys ↔
      k ∈ global.keys ∨ k = "Authorization" ∨ k = "x-keyfactor-api-version" := by
  unfold buildHeaders
  rw [GoMap.mem_keys_set, GoMap.mem_keys_set, GoMap.mem_keys_iff, GoMap.mem_keys_iff]
  simp only [GoMap.get_copy]
  tauto

/-! ## The branches of `GetHeaders` -/

theorem GetHeaders_invalid (Variables : Config) (PostForm : Transport) (apiVersion : String)
    (h1 : index Variables "Auth_Method" ≠ some (.str "oauth"))
    (h2 : index Variables "Auth_Method" ≠ some (.str "basic")) :
    GetHeaders Variables PostForm apiVersion = ⟨[], [], .returned none (some InvalidAuthMethod)⟩ := by
  have e1 : eqString (index Variables "Auth_Method") "oauth" = false := by
    rw [← Bool.not_eq_true, eqString_iff]; exact h1
  have e2 : eqString (index Variables "Auth_Method") "basic" = false := by
    rw [← Bool.not_eq_true, eqString_iff]; exact h2
  simp [GetHeaders, e1, e2]

theorem GetHeaders_basic (Variables : Config) (PostForm : Transport)
    (apiVersion u p : String) (base : GoMap String)
    (hm : index Variables "Auth_Method" = some (.str "basic"))
    (hu : index Variables "keyfactorUser" = some (.str u))
    (hp : index Variables "keyfactorPassword" = some (.str p))
    (hg : index Variables "GlobalHeaders" = some (.strMap base)) :
    GetHeaders Variables PostForm apiVersion =
      ⟨[], [], .returned (some (buildHeaders base
        ("Basic " ++ EncodeToString (bytes (u ++ ":" ++ p))) apiVersion)) none⟩ := by
  have e1 : eqString (index Variables "Auth_Method") "oauth" = false := by
    rw [hm]; decide
  have e2 : eqString (index Variables "Auth_Method") "basic" = true := by
    rw [hm]; decide
  simp [GetHeaders, e1, e2, hu, hp, hg, assertString, assertStrMap]

theorem GetHeaders_oauth_requests (Variables : Config) (PostForm : Transport)
    (apiVersion cid secret url : String)
    (hm : index Variables "Auth_Method" = some (.str "oauth"))
    (hc : index Variables "client_id" = some (.str cid))
    (hs : index Variables "client_secret" = some (.str secret))
    (hu : index Variables "token_url" = some (.str url)) :
    (GetHeaders Variables PostForm apiVersion).requests =
      [⟨url, "application/x-www-form-urlencoded", authBody Variables cid secret⟩] := by
  have e1 : eqString (index Variables "Auth_Method") "oauth" = true := by
    rw [hm]; decide
  simp only [GetHeaders, e1, hc, hs, hu, assertString, if_true]
  cases PostForm url (authBody Variables cid secret) with
  | error err => rfl
  | ok resp =>
    simp only
    split
    · rfl
    · cases Decode resp.Body with
      | error err => rfl
      | ok m =>
        simp only
        cases jsonString (m.get "access_token") with
        | none => rfl
        | some token =>
          simp only
          cases assertStrMap (index Variables "GlobalHeaders") <;> rfl

theorem GetHeaders_requests_inv (Variables : Config) (PostForm : Transport)
    (apiVersion : String) (req : Request)
    (hreq : req ∈ (GetHeaders Variables PostForm apiVersion).requests) :
    ∃ cid secret url, index Variables "Auth_Method" = some (.str "oauth") ∧
      index Variables "client_id" = some (.str cid) ∧
      index Variables "client_secret" = some (.str secret) ∧
      index Variables "token_url" = some (.str url) ∧
      req = ⟨url, "application/x-www-form-urlencoded", authBody Variables cid secret⟩ := by
  by_cases e1 : index Variables "Auth_Method" = some (.str "oauth")
  · cases hc : assertString (index Variables "client_id") with
    | none =>
      have e1' := (eqString_iff _ _).2 e1
      simp [GetHeaders, e1', hc] at hreq
    | some cid =>
      cases hs : assertString (index Variables "client_secret") with
      | none =>
        have e1' := (eqString_iff _ _).2 e1
        simp [GetHeaders, e1', hc, hs] at hreq
      | some secret =>
        cases hu : assertString (index Variables "token_url") with
        | none =>
          have e1' := (eqString_iff _ _).2 e1
          simp [GetHeaders, e1', hc, hs, hu] at hreq
        | some url =>
          rw [assertString_iff] at hc hs hu
          rw [GetHeaders_oauth_requests _ _ _ _ _ _ e1 hc hs hu, List.mem_singleton] at hreq
          exact ⟨cid, secret, url, e1, hc, hs, hu, hreq⟩
  · have e1' : eqString (index Variables "Auth_Method") "oauth" = false := by
      rw [← Bool.not_eq_true, eqString_iff]; exact e1
    by_cases e2 : eqString (index Variables "Auth_Method") "basic" = true
    · exfalso
      simp only [GetHeaders, e1', e2, if_true] at hreq
      revert hreq
      cases assertString (index Variables "keyfactorUser") with
      | none => simp
      | some u =>
        cases assertString (index Variables "keyfactorPassword") with
        | none => simp
        | some pw =>
          cases assertStrMap (index Variables "GlobalHeaders") <;> simp
    · simp [GetHeaders, e1', e2] at hreq

theorem GetHeaders_oauth_rejected (Variables : Config) (PostForm : Transport)
    (apiVersion cid secret url : String) (resp : Response)
    (hm : index Variables "Auth_Method" = some (.str "oauth"))
    (hc : index Variables "client_id" = some (.str cid))
    (hs : index Variables "client_secret" = some (.str secret))
    (hu : index Variables "token_url" = some (.str url))
    (hresp : PostForm url (authBody Variables cid secret) = .ok resp)
    (hcode : resp.StatusCode ≠ 200) :
    (GetHeaders Variables PostForm apiVersion).result =
      .returned none (some TokenRequestRejected) := by
  have e1 : eqString (index Variables "Auth_Method") "oauth" = true := by
    rw [hm]; decide
  simp [GetHeaders, e1, hc, hs, hu, assertString, hresp, StatusOK, hcode]

theorem GetHeaders_oauth_missing (Variables : Config) (PostForm : Transport)
    (apiVersion cid secret url : String) (resp : Response) (members : List (String × Json))
    (hm : index Variables "Auth_Method" = some (.str "oauth"))
    (hc : index Variables "client_id" = some (.str cid))
    (hs : index Variables "client_secret" = some (.str secret))
    (hu : index Variables "token_url" = some (.str url))
    (hresp : PostForm url (authBody Variables cid secret) = .ok resp)
    (hcode : resp.StatusCode = 200)
    (hbody : resp.Body = .ok (.obj members))
    (hd : Json.Decodable (.obj members))
    (hno : ∀ t, Json.member members "access_token" ≠ some (.str t)) :
    (GetHeaders Variables PostForm apiVersion).result =
      .returned none (some MissingAccessToken) := by
  have e1 : eqString (index Variables "Auth_Method") "oauth" = true := by
    rw [hm]; decide
  obtain ⟨m, hdec, hget⟩ := Decode_obj members hd
  have hj : jsonString (m.get "access_token") = none := by
    cases hjs : jsonString (m.get "access_token") with
    | none => rfl
    | some t =>
      rw [jsonString_iff, hget] at hjs
      exact absurd hjs (hno t)
  simp [GetHeaders, e1, hc, hs, hu, assertString, hresp, StatusOK, hcode, hbody, hdec, hj]

theorem GetHeaders_oauth_ok (Variables : Config) (PostForm : Transport)
    (apiVersion cid secret url t : String) (base : GoMap String) (resp : Response)
    (members : List (String × Json))
    (hm : index Variables "Auth_Method" = some (.str "oauth"))
    (hc : index Variables "client_id" = some (.str cid))
    (hs : index Variables "client_secret" = some (.str secret))
    (hu : index Variables "token_url" = some (.str url))
    (hg : index Variables "GlobalHeaders" = some (.strMap base))
    (hresp : PostForm url (authBody Variables cid secret) = .ok resp)
    (hcode : resp.StatusCode = 200)
    (hbody : resp.Body = .ok (.obj members))
    (hd : Json.Decodable (.obj members))
    (ht : Json.member members "access_token" = some (.str t)) :
    (GetHeaders Variables PostForm apiVersion).result =
      .returned (some (buildHeaders base ("Bearer " ++ t) apiVersion)) none := by
  have e1 : eqString (index Variables "Auth_Method") "oauth" = true := by
    rw [hm]; decide
  obtain ⟨m, hdec, hget⟩ := Decode_obj members hd
  have hj : jsonString (m.get "access_token") = some t := by
    rw [jsonString_iff, hget]; exact ht
  simp [GetHeaders, e1, hc, hs, hu, hg, assertString, assertStrMap, hresp, StatusOK, hcode,
    hbody, hdec, hj]

/-- Every successful return comes from one of the two branches, with the
headers assembled from the global headers and the computed credentials. -/
theorem GetHeaders_success_inv (Variables : Config) (PostForm : Transport)
    (apiVersion : String) (h : GoMap String)
    (hok : (GetHeaders Variables PostForm apiVersion).result = .returned (some h) none) :
    ∃ base, index Variables "GlobalHeaders" = some (.strMap base) ∧
      ((∃ cid secret url resp members token,
          index Variables "Auth_Method" = some (.str "oauth") ∧
          index Variables "client_id" = some (.str cid) ∧
          index Variables "client_secret" = some (.str secret) ∧
          index Variables "token_url" = some (.str url) ∧
          PostForm url (authBody Variables cid secret) = .ok resp ∧
          resp.StatusCode = 200 ∧ resp.Body = .ok (.obj members) ∧
          Json.member members "access_token" = some (.str token) ∧
          h = buildHeaders base ("Bearer " ++ token) apiVersion) ∨
       (∃ u p,
          index Variables "Auth_Method" = some (.str "basic") ∧
          index Variables "keyfactorUser" = some (.str u) ∧
          index Variables "keyfactorPassword" = some (.str p) ∧
          h = buildHeaders base ("Basic " ++ EncodeToString (bytes (u ++ ":" ++ p)))
            apiVersion)) := by
  by_cases e1 : eqString (index Variables "Auth_Method") "oauth" = true
  · simp only [GetHeaders, e1, if_true] at hok
    cases hc : assertString (index Variables "client_id") with
    | none => simp [hc] at hok
    | some cid =>
    cases hs : assertString (index Variables "client_secret") with
    | none => simp [hc, hs] at hok
    | some secret =>
    cases hu : assertString (index Variables "token_url") with
    | none => simp [hc, hs, hu] at hok
    | some url =>
    cases hresp : PostForm url (authBody Variables cid secret) with
    | error err => simp [hc, hs, hu, hresp] at hok
    | ok resp =>
    by_cases hcode : resp.StatusCode = 200
    · cases hdec : Decode resp.Body with
      | error err => simp [hc, hs, hu, hresp, hcode, StatusOK, hdec] at hok
      | ok m =>
      cases hj : jsonString (m.get "access_token") with
      | none => simp [hc, hs, hu, hresp, hcode, StatusOK, hdec, hj] at hok
      | some token =>
      cases hg : assertStrMap (index Variables "GlobalHeaders") with
      | none => simp [hc, hs, hu, hresp, hcode, StatusOK, hdec, hj, hg] at hok
      | some base =>
        simp [hc, hs, hu, hresp, hcode, StatusOK, hdec, hj, hg] at hok
        rw [jsonString_iff] at hj
        obtain ⟨members, hbody, hmem⟩ := Decode_ok_inv _ _ _ _ hdec hj
        rw [assertString_iff] at hc hs hu
        exact ⟨base, (assertStrMap_iff _ _).1 hg, Or.inl ⟨cid, secret, url, resp, members,
          token, (eqString_iff _ _).1 e1, hc, hs, hu, hresp, hcode, hbody, hmem, hok.symm⟩⟩
    · simp [hc, hs, hu, hresp, hcode, StatusOK] at hok
  · by_cases e2 : eqString (index Variables "Auth_Method") "basic" = true
    · simp only [GetHeaders, e1, e2, if_true] at hok
      cases hu : assertString (index Variables "keyfactorUser") with
      | none => simp [hu] at hok
      | some u =>
      cases hp : assertString (index Variables "keyfactorPassword") with
      | none => simp [hu, hp] at hok
      | some p =>
      cases hg : assertStrMap (index Variables "GlobalHeaders") with
      | none => simp [hu, hp, hg] at hok
      | some base =>
        simp [hu, hp, hg] at hok
        rw [assertString_iff] at hu hp
        exact ⟨base, (assertStrMap_iff _ _).1 hg, Or.inr ⟨u, p, (eqString_iff _ _).1 e2,
          hu, hp, hok.symm⟩⟩
    · simp [GetHeaders, e1, e2] at hok

theorem GoMap.get_set {α : Type} (m : GoMap α) (k k' : String) (v : α) :
    (m.set k v).get k' = if k' = k then some v else m.get k' := by
  by_cases h : k' = k
  · subst h; simp [GoMap.get_set_self]
  · simp [h, GoMap.get_set_ne _ _ _ _ h]

theorem GoMap.mem_keys_empty {α : Type} (k : String) : ¬ k ∈ (GoMap.empty : GoMap α).keys := by
  simp [GoMap.keys, GoMap.empty]

theorem authBody_spec (Variables : Config) (cid secret : String) :
    (authBody Variables cid secret).get "grant_type" = some ["client_credentials"] ∧
    (authBody Variables cid secret).get "client_id" = some [cid] ∧
    (authBody Variables cid secret).get "client_secret" = some [secret] ∧
    ("scope" ∈ (authBody Variables cid secret).keys ↔
      ∃ s, index Variables "scope" = some (.str s) ∧ s ≠ "") ∧
    (∀ s, index Variables "scope" = some (.str s) → s ≠ "" →
      (authBody Variables cid secret).get "scope" = some [s]) ∧
    ("audience" ∈ (authBody Variables cid secret).keys ↔
      ∃ s, index Variables "audience" = some (.str s) ∧ s ≠ "") ∧
    (∀ s, index Variables "audience" = some (.str s) → s ≠ "" →
      (authBody Variables cid secret).get "audience" = some [s]) ∧
    (∀ k ∈ (authBody Variables cid secret).keys,
      k ∈ ["grant_type", "client_id", "client_secret", "scope", "audience"]) := by
  simp only [← assertString_iff]
  unfold authBody
  cases hsc : assertString (index Variables "scope") with
  | none =>
    cases hau : assertString (index Variables "audience") with
    | none =>
      simp [Values.Set, GoMap.get_set, GoMap.mem_keys_set, GoMap.mem_keys_empty]
    | some a =>
      by_cases ha : a = ""
      · simp [Values.Set, GoMap.get_set, GoMap.mem_keys_set, GoMap.mem_keys_empty, ha]
      · simp [Values.Set, GoMap.get_set, GoMap.mem_keys_set, GoMap.mem_keys_empty, ha]
  | some sc =>
    by_cases hs : sc = ""
    · cases hau : assertString (index Variables "audience") with
      | none =>
        simp [Values.Set, GoMap.get_set, GoMap.mem_keys_set, GoMap.mem_keys_empty, hs]
      | some a =>
        by_cases ha : a = ""
        · simp [Values.Set, GoMap.get_set, GoMap.mem_keys_set, GoMap.mem_keys_empty, hs, ha]
        · simp [Values.Set, GoMap.get_set, GoMap.mem_keys_set, GoMap.mem_keys_empty, hs, ha]
    · cases hau : assertString (index Variables "audience") with
      | none =>
        simp [Values.Set, GoMap.get_set, GoMap.mem_keys_set, GoMap.mem_keys_empty, hs]
      | some a =>
        by_cases ha : a = ""
        · simp [Values.Set, GoMap.get_set, GoMap.mem_keys_set, GoMap.mem_keys_empty, hs, ha]
        · simp [Values.Set, GoMap.get_set, GoMap.mem_keys_set, GoMap.mem_keys_empty, hs, ha]

/-! ## The properties of the specification -/

/-- C1: with the Basic method, user `u` and password `p`, `GetHeaders` succeeds
and `Authorization` is exactly `Basic ` followed by the standard padded Base64
of the bytes of `u:p`; for `u` and `p` it is `Basic dTpw`. -/
theorem basic_authorization_header (Variables : Config) (PostForm : Transport)
    (u p apiVersion : String) (base : GoMap String)
    (hm : index Variables "Auth_Method" = some (.str "basic"))
    (hu : index Variables "keyfactorUser" = some (.str u))
    (hp : index Variables "keyfactorPassword" = some (.str p))
    (hg : index Variables "GlobalHeaders" = some (.strMap base)) :
    ∃ h, (GetHeaders Variables PostForm apiVersion).result = .returned (some h) none ∧
      h.get "Authorization" = some ("Basic " ++ base64Std (bytes (u ++ ":" ++ p))) ∧
      (u = "u" → p = "p" → h.get "Authorization" = some "Basic dTpw") := by
  refine ⟨_, congrArg Run.result (GetHeaders_basic _ PostForm apiVersion u p base hm hu hp hg),
    ?_, ?_⟩
  · rw [buildHeaders_authorization, EncodeToString_bytes]
  · rintro rfl rfl
    rw [buildHeaders_authorization]
    decide

/-- The Basic property at user `u`, password `p` and the global headers of the source. -/
theorem basic_authorization_header_witness :
    ∃ h, (GetHeaders (basicConfig sampleHeaders) offline "2").result = .returned (some h) none ∧
      h.get "Authorization" = some ("Basic " ++ base64Std (bytes ("u" ++ ":" ++ "p"))) ∧
      ("u" = "u" → "p" = "p" → h.get "Authorization" = some "Basic dTpw") :=
  basic_authorization_header (basicConfig sampleHeaders) offline "u" "p" "2" sampleHeaders
    rfl rfl rfl rfl

/-- C2, as the code has it: with the OAuth method, when the token endpoint
answers the request with status 200 and a JSON object that `encoding/json`
decodes without error (nested no deeper than its limit, no number overflowing
`float64`) and whose `access_token` is the string `t`, `GetHeaders` succeeds
with `Authorization` equal to `Bearer ` followed by `t` and
`x-keyfactor-api-version` equal to `apiVersion`. -/
theorem oauth_bearer_headers (Variables : Config) (PostForm : Transport)
    (apiVersion t : String) (base : GoMap String) (req : Request) (resp : Response)
    (members : List (String × Json))
    (hm : index Variables "Auth_Method" = some (.str "oauth"))
    (hg : index Variables "GlobalHeaders" = some (.strMap base))
    (hreq : req ∈ (GetHeaders Variables PostForm apiVersion).requests)
    (hresp : PostForm req.url req.form = .ok resp)
    (hcode : resp.StatusCode = 200)
    (hbody : resp.Body = .ok (.obj members))
    (hd : Json.Decodable (.obj members))
    (ht : Json.member members "access_token" = some (.str t)) :
    ∃ h, (GetHeaders Variables PostForm apiVersion).result = .returned (some h) none ∧
      h.get "Authorization" = some ("Bearer " ++ t) ∧
      h.get "x-keyfactor-api-version" = some apiVersion := by
  obtain ⟨cid, secret, url, -, hc, hs, hu, rfl⟩ := GetHeaders_requests_inv _ _ _ _ hreq
  exact ⟨_, GetHeaders_oauth_ok _ _ apiVersion cid secret url t base resp members hm hc hs hu hg
    hresp hcode hbody hd ht, buildHeaders_authorization _ _ _, buildHeaders_version _ _ _⟩

/-- The OAuth property at an endpoint answering 200 with `access_token` equal to `abc123`. -/
theorem oauth_bearer_headers_witness :
    Json.Decodable (.obj tokenMembers) ∧
    ∃ h, (GetHeaders oauthConfig (answering 200 (.ok (.obj tokenMembers))) "2").result
        = .returned (some h) none ∧
      h.get "Authorization" = some ("Bearer " ++ "abc123") ∧
      h.get "x-keyfactor-api-version" = some "2" :=
  ⟨⟨by decide, rfl⟩,
    oauth_bearer_headers oauthConfig (answering 200 (.ok (.obj tokenMembers))) "2" "abc123"
      sampleHeaders oauthRequest ⟨200, .ok (.obj tokenMembers)⟩ tokenMembers rfl rfl
      (List.mem_singleton.2 rfl) rfl rfl rfl ⟨by decide, rfl⟩ rfl⟩

/-- C2 as stated fails: the endpoint answers 200 with a JSON object whose
`access_token` is the string `abc123` and whose `expires_in` is `1e999`; the
decoder returns an error for the number, line 82 returns it, and the call does
not succeed. -/
theorem bearer_lost_on_number_overflow :
    Json.member expiresMembers "access_token" = some (.str "abc123") ∧
    (GetHeaders oauthConfig (answering 200 (.ok (.obj expiresMembers))) "2").result
      = .returned none (some overflowError) ∧
    ¬ ∃ h, (GetHeaders oauthConfig (answering 200 (.ok (.obj expiresMembers))) "2").result
        = .returned (some h) none ∧
      h.get "Authorization" = some ("Bearer " ++ "abc123") ∧
      h.get "x-keyfactor-api-version" = some "2" := by
  have hr : (GetHeaders oauthConfig (answering 200 (.ok (.obj expiresMembers))) "2").result
      = .returned none (some overflowError) := rfl
  refine ⟨rfl, hr, ?_⟩
  rw [hr]
  rintro ⟨h, hh, -⟩
  cases hh

/-- C3, as the code has it: on every successful call each entry of the base
header mapping whose name is neither `Authorization` nor
`x-keyfactor-api-version` is in the result with the same value, and the result
has both of these two headers. -/
theorem base_headers_preserved (Variables : Config) (PostForm : Transport)
    (apiVersion : String) (h base : GoMap String)
    (hok : (GetHeaders Variables PostForm apiVersion).result = .returned (some h) none)
    (hg : index Variables "GlobalHeaders" = some (.strMap base)) :
    (∀ k v, k ≠ "Authorization" → k ≠ "x-keyfactor-api-version" →
      base.get k = some v → h.get k = some v) ∧
    (∃ a, h.get "Authorization" = some a) ∧
    h.get "x-keyfactor-api-version" = some apiVersion := by
  obtain ⟨base', hg', hcase⟩ := GetHeaders_success_inv _ _ _ _ hok
  have hb : base' = base := by
    rw [hg] at hg'
    injection hg' with h1
    injection h1 with h2
    exact h2.symm
  subst hb
  have hshape : ∃ a, h = buildHeaders base' a apiVersion := by
    rcases hcase with ⟨_, _, _, _, _, token, _, _, _, _, _, _, _, _, hh⟩ | ⟨u, p, _, _, _, hh⟩
    · exact ⟨_, hh⟩
    · exact ⟨_, hh⟩
  obtain ⟨a, rfl⟩ := hshape
  refine ⟨fun k v h1 h2 hk => ?_, ⟨a, buildHeaders_authorization _ _ _⟩,
    buildHeaders_version _ _ _⟩
  rw [buildHeaders_other _ _ _ _ h1 h2, hk]

/-- The frame property at a Basic call whose base mapping has an `Authorization` entry. -/
theorem base_headers_preserved_witness :
    (GetHeaders (basicConfig clashHeaders) offline "2").result
      = .returned (some clashResult) none ∧
    index (basicConfig clashHeaders) "GlobalHeaders" = some (.strMap clashHeaders) ∧
    (∀ k v, k ≠ "Authorization" → k ≠ "x-keyfactor-api-version" →
      clashHeaders.get k = some v → clashResult.get k = some v) ∧
    (∃ a, clashResult.get "Authorization" = some a) ∧
    clashResult.get "x-keyfactor-api-version" = some "2" :=
  ⟨rfl, rfl,
    base_headers_preserved (basicConfig clashHeaders) offline "2" clashResult clashHeaders rfl rfl⟩

/-- C3 as stated fails: with a base mapping that has an `Authorization` entry,
a successful call returns a mapping in which that entry has another value. -/
theorem base_authorization_overwritten :
    ∃ h, (GetHeaders (basicConfig clashHeaders) offline "2").result = .returned (some h) none ∧
      index (basicConfig clashHeaders) "GlobalHeaders" = some (.strMap clashHeaders) ∧
      ¬ (∀ k v, clashHeaders.get k = some v → h.get k = some v) := by
  refine ⟨_, rfl, rfl, fun hall => ?_⟩
  have h1 := hall "Authorization" "custom" rfl
  rw [buildHeaders_authorization] at h1
  revert h1
  decide

/-- C4: with the OAuth method, when the token endpoint answers the request with
a status other than 200, `GetHeaders` returns no header mapping and the error
`TokenRequestRejected`, whatever the body of the response. -/
theorem oauth_non200_rejected (Variables : Config) (PostForm : Transport)
    (apiVersion : String) (req : Request) (resp : Response)
    (hm : index Variables "Auth_Method" = some (.str "oauth"))
    (hreq : req ∈ (GetHeaders Variables PostForm apiVersion).requests)
    (hresp : PostForm req.url req.form = .ok resp)
    (hcode : resp.StatusCode ≠ 200) :
    (GetHeaders Variables PostForm apiVersion).result =
      .returned none (some TokenRequestRejected) := by
  obtain ⟨cid, secret, url, -, hc, hs, hu, rfl⟩ := GetHeaders_requests_inv _ _ _ _ hreq
  exact GetHeaders_oauth_rejected _ _ apiVersion cid secret url resp hm hc hs hu hresp hcode

/-- The rejection property at an endpoint answering 500 with a body that carries a token. -/
theorem oauth_non200_rejected_witness :
    (GetHeaders oauthConfig (answering 500 (.ok (.obj tokenMembers))) "2").result =
      .returned none (some TokenRequestRejected) :=
  oauth_non200_rejected oauthConfig (answering 500 (.ok (.obj tokenMembers))) "2"
    oauthRequest ⟨500, .ok (.obj tokenMembers)⟩ rfl (List.mem_singleton.2 rfl) rfl (by decide)

/-- C5, as the code has it: with the OAuth method, when the token endpoint
answers the request with status 200 and a JSON object that `encoding/json`
decodes without error (nested no deeper than its limit, no number overflowing
`float64`) and in which `access_token` is absent or is not a string,
`GetHeaders` returns no header mapping and the error `MissingAccessToken`. -/
theorem oauth_missing_access_token (Variables : Config) (PostForm : Transport)
    (apiVersion : String) (req : Request) (resp : Response) (members : List (String × Json))
    (hm : index Variables "Auth_Method" = some (.str "oauth"))
    (hreq : req ∈ (GetHeaders Variables PostForm apiVersion).requests)
    (hresp : PostForm req.url req.form = .ok resp)
    (hcode : resp.StatusCode = 200)
    (hbody : resp.Body = .ok (.obj members))
    (hd : Json.Decodable (.obj members))
    (hno : Json.member members "access_token" = none ∨
      ∃ j, Json.member members "access_token" = some j ∧ ∀ t, j ≠ .str t) :
    (GetHeaders Variables PostForm apiVersion).result =
      .returned none (some MissingAccessToken) := by
  obtain ⟨cid, secret, url, -, hc, hs, hu, rfl⟩ := GetHeaders_requests_inv _ _ _ _ hreq
  refine GetHeaders_oauth_missing _ _ apiVersion cid secret url resp members hm hc hs hu hresp
    hcode hbody hd (fun t ht => ?_)
  rcases hno with hnone | ⟨j, hj, hns⟩
  · rw [hnone] at ht; cases ht
  · rw [hj] at ht
    injection ht with ht
    exact hns t ht

/-- The missing-token property at an endpoint answering 200 with only `foo` in the body. -/
theorem oauth_missing_access_token_witness :
    Json.Decodable (.obj fooMembers) ∧
    (GetHeaders oauthConfig (answering 200 (.ok (.obj fooMembers))) "2").result =
      .returned none (some MissingAccessToken) :=
  ⟨⟨by decide, rfl⟩,
    oauth_missing_access_token oauthConfig (answering 200 (.ok (.obj fooMembers))) "2"
      oauthRequest ⟨200, .ok (.obj fooMembers)⟩ fooMembers rfl (List.mem_singleton.2 rfl)
      rfl rfl rfl ⟨by decide, rfl⟩ (Or.inl rfl)⟩

/-- C5 as stated fails: the endpoint answers 200 with a JSON object whose
`access_token` is the number `1e999`, which is not a string; the decoder
returns an error for the number and line 82 returns that error, not the one of
line 87. -/
theorem decode_error_before_missing_token :
    (∃ j, Json.member numericTokenMembers "access_token" = some j ∧ ∀ t, j ≠ .str t) ∧
    (GetHeaders oauthConfig (answering 200 (.ok (.obj numericTokenMembers))) "2").result
      = .returned none (some overflowError) ∧
    (GetHeaders oauthConfig (answering 200 (.ok (.obj numericTokenMembers))) "2").result
      ≠ .returned none (some MissingAccessToken) := by
  have hr : (GetHeaders oauthConfig (answering 200 (.ok (.obj numericTokenMembers))) "2").result
      = .returned none (some overflowError) := rfl
  refine ⟨⟨_, rfl, fun t ht => by cases ht⟩, hr, ?_⟩
  rw [hr]
  intro h
  injection h with _ h2
  injection h2 with h3
  revert h3
  decide

/-- C6: when the configured method is neither the OAuth nor the Basic one,
`GetHeaders` returns no header mapping and the error `InvalidAuthMethod`, and
issues no outbound request. -/
theorem invalid_auth_method (Variables : Config) (PostForm : Transport) (apiVersion : String)
    (h1 : index Variables "Auth_Method" ≠ some (.str "oauth"))
    (h2 : index Variables "Auth_Method" ≠ some (.str "basic")) :
    (GetHeaders Variables PostForm apiVersion).result =
      .returned none (some InvalidAuthMethod) ∧
    (GetHeaders Variables PostForm apiVersion).requests = [] := by
  rw [GetHeaders_invalid _ _ _ h1 h2]
  exact ⟨rfl, rfl⟩

/-- The invalid-method property at the method `ldap`, on a network that would answer. -/
theorem invalid_auth_method_witness :
    (GetHeaders ldapConfig (answering 200 (.ok (.obj tokenMembers))) "2").result =
      .returned none (some InvalidAuthMethod) ∧
    (GetHeaders ldapConfig (answering 200 (.ok (.obj tokenMembers))) "2").requests = [] :=
  invalid_auth_method ldapConfig (answering 200 (.ok (.obj tokenMembers))) "2"
    (by simp [index, ldapConfig, List.lookup]) (by simp [index, ldapConfig, List.lookup])

/-- C7: in the OAuth branch exactly one request is issued, to the configured
token URL; its form has `grant_type` equal to `client_credentials`, `client_id`
and `client_secret` equal to the configured values, has the key `scope` exactly
when the configured scope is a non-empty string (then with that value), likewise
`audience`, and has no other key. -/
theorem oauth_form_body (Variables : Config) (PostForm : Transport)
    (apiVersion cid secret url : String)
    (hm : index Variables "Auth_Method" = some (.str "oauth"))
    (hc : index Variables "client_id" = some (.str cid))
    (hs : index Variables "client_secret" = some (.str secret))
    (hu : index Variables "token_url" = some (.str url)) :
    ∃ req, (GetHeaders Variables PostForm apiVersion).requests = [req] ∧
      req.url = url ∧
      req.form.get "grant_type" = some ["client_credentials"] ∧
      req.form.get "client_id" = some [cid] ∧
      req.form.get "client_secret" = some [secret] ∧
      ("scope" ∈ req.form.keys ↔ ∃ s, index Variables "scope" = some (.str s) ∧ s ≠ "") ∧
      (∀ s, index Variables "scope" = some (.str s) → s ≠ "" →
        req.form.get "scope" = some [s]) ∧
      ("audience" ∈ req.form.keys ↔ ∃ s, index Variables "audience" = some (.str s) ∧ s ≠ "") ∧
      (∀ s, index Variables "audience" = some (.str s) → s ≠ "" →
        req.form.get "audience" = some [s]) ∧
      (∀ k ∈ req.form.keys,
        k ∈ ["grant_type", "client_id", "client_secret", "scope", "audience"]) :=
  ⟨_, GetHeaders_oauth_requests _ PostForm apiVersion cid secret url hm hc hs hu, rfl,
    authBody_spec Variables cid secret⟩

/-- The form property at a configuration with an empty scope and the audience `api`. -/
theorem oauth_form_body_witness :
    ∃ req, (GetHeaders oauthConfig offline "2").requests = [req] ∧
      req.url = "https://idp.example/token" ∧
      req.form.get "grant_type" = some ["client_credentials"] ∧
      req.form.get "client_id" = some ["id"] ∧
      req.form.get "client_secret" = some ["secret"] ∧
      ("scope" ∈ req.form.keys ↔ ∃ s, index oauthConfig "scope" = some (.str s) ∧ s ≠ "") ∧
      (∀ s, index oauthConfig "scope" = some (.str s) → s ≠ "" →
        req.form.get "scope" = some [s]) ∧
      ("audience" ∈ req.form.keys ↔ ∃ s, index oauthConfig "audience" = some (.str s) ∧ s ≠ "") ∧
      (∀ s, index oauthConfig "audience" = some (.str s) → s ≠ "" →
        req.form.get "audience" = some [s]) ∧
      (∀ k ∈ req.form.keys,
        k ∈ ["grant_type", "client_id", "client_secret", "scope", "audience"]) :=
  oauth_form_body oauthConfig offline "2" "id" "secret" "https://idp.example/token"
    rfl rfl rfl rfl

/-- C8, as the code has it: for every configuration whose entries read by the
selected branch have the asserted types, every `apiVersion` and every behaviour
of the token endpoint, `GetHeaders` returns either a header mapping holding both
`Authorization` and `x-keyfactor-api-version` and no error, or an error and no
header mapping. -/
theorem complete_headers_or_error (Variables : Config) (PostForm : Transport)
    (apiVersion : String) (hwf : WellFormed Variables) :
    (∃ h, (GetHeaders Variables PostForm apiVersion).result = .returned (some h) none ∧
      (∃ a, h.get "Authorization" = some a) ∧
      h.get "x-keyfactor-api-version" = some apiVersion) ∨
    (∃ e, (GetHeaders Variables PostForm apiVersion).result = .returned none (some e)) := by
  by_cases e1 : eqString (index Variables "Auth_Method") "oauth" = true
  · obtain ⟨⟨cid, hc⟩, ⟨secret, hs⟩, ⟨url, hu⟩, ⟨base, hg⟩⟩ := hwf.1 e1
    simp only [GetHeaders, e1, if_true, hc, hs, hu, hg, assertString, assertStrMap]
    cases PostForm url (authBody Variables cid secret) with
    | error msg => exact Or.inr ⟨_, rfl⟩
    | ok resp =>
      simp only
      split
      · exact Or.inr ⟨_, rfl⟩
      · cases Decode resp.Body with
        | error err => exact Or.inr ⟨err, rfl⟩
        | ok m =>
          simp only
          cases jsonString (m.get "access_token") with
          | none => exact Or.inr ⟨_, rfl⟩
          | some token =>
            exact Or.inl ⟨_, rfl, ⟨_, buildHeaders_authorization _ _ _⟩,
              buildHeaders_version _ _ _⟩
  · have e1' : eqString (index Variables "Auth_Method") "oauth" = false := by
      simpa using e1
    by_cases e2 : eqString (index Variables "Auth_Method") "basic" = true
    · obtain ⟨⟨u, hu⟩, ⟨p, hp⟩, ⟨base, hg⟩⟩ := hwf.2 e1' e2
      rw [GetHeaders_basic _ PostForm apiVersion u p base ((eqString_iff _ _).1 e2) hu hp hg]
      exact Or.inl ⟨_, rfl, ⟨_, buildHeaders_authorization _ _ _⟩, buildHeaders_version _ _ _⟩
    · have h1 : index Variables "Auth_Method" ≠ some (.str "oauth") :=
        fun h => e1 ((eqString_iff _ _).2 h)
      have h2 : index Variables "Auth_Method" ≠ some (.str "basic") :=
        fun h => e2 ((eqString_iff _ _).2 h)
      rw [GetHeaders_invalid _ PostForm apiVersion h1 h2]
      exact Or.inr ⟨_, rfl⟩

/-- The dichotomy at a well-formed OAuth configuration and an endpoint answering 200. -/
theorem complete_headers_or_error_witness :
    WellFormed oauthConfig ∧
    ((∃ h, (GetHeaders oauthConfig (answering 200 (.ok (.obj tokenMembers))) "2").result
        = .returned (some h) none ∧
      (∃ a, h.get "Authorization" = some a) ∧
      h.get "x-keyfactor-api-version" = some "2") ∨
    (∃ e, (GetHeaders oauthConfig (answering 200 (.ok (.obj tokenMembers))) "2").result
        = .returned none (some e))) :=
  have hwf : WellFormed oauthConfig :=
    ⟨fun _ => ⟨⟨_, rfl⟩, ⟨_, rfl⟩, ⟨_, rfl⟩, ⟨_, rfl⟩⟩,
      fun h _ => absurd h (by decide)⟩
  ⟨hwf, complete_headers_or_error oauthConfig (answering 200 (.ok (.obj tokenMembers))) "2" hwf⟩

/-- C8 as stated fails: an OAuth configuration without a `client_id` entry makes
the type assertion of line 60 panic, so that `GetHeaders` returns neither a
header mapping nor an error. -/
theorem panic_without_client_id :
    (GetHeaders noClientIdConfig offline "2").result = .panicked ∧
    ¬ ((∃ h, (GetHeaders noClientIdConfig offline "2").result = .returned (some h) none ∧
        (∃ a, h.get "Authorization" = some a) ∧
        h.get "x-keyfactor-api-version" = some "2") ∨
      (∃ e, (GetHeaders noClientIdConfig offline "2").result = .returned none (some e))) := by
  have hp : (GetHeaders noClientIdConfig offline "2").result = .panicked := rfl
  refine ⟨hp, ?_⟩
  rw [hp]
  rintro (⟨h, hh, -⟩ | ⟨e, he⟩)
  · cases hh
  · cases he

/-- C9: with the Basic method, when user and password are strings and the
global headers are a string map, `GetHeaders` returns a header mapping and no
error, and issues no outbound request. -/
theorem basic_never_fails (Variables : Config) (PostForm : Transport)
    (apiVersion u p : String) (base : GoMap String)
    (hm : index Variables "Auth_Method" = some (.str "basic"))
    (hu : index Variables "keyfactorUser" = some (.str u))
    (hp : index Variables "keyfactorPassword" = some (.str p))
    (hg : index Variables "GlobalHeaders" = some (.strMap base)) :
    (∃ h, (GetHeaders Variables PostForm apiVersion).result = .returned (some h) none) ∧
    (GetHeaders Variables PostForm apiVersion).requests = [] := by
  rw [GetHeaders_basic _ PostForm apiVersion u p base hm hu hp hg]
  exact ⟨⟨_, rfl⟩, rfl⟩

/-- The Basic totality property at user `u`, password `p`, on a network that would answer 500. -/
theorem basic_never_fails_witness :
    (∃ h, (GetHeaders (basicConfig sampleHeaders) (answering 500 (.error "EOF")) "2").result
      = .returned (some h) none) ∧
    (GetHeaders (basicConfig sampleHeaders) (answering 500 (.error "EOF")) "2").requests = [] :=
  basic_never_fails (basicConfig sampleHeaders) (answering 500 (.error "EOF")) "2" "u" "p" sampleHeaders
    rfl rfl rfl rfl

/-- C10: on every successful call the keys of the result are exactly the keys
of the base header mapping together with `Authorization` and
`x-keyfactor-api-version`, and these two hold the computed values (the bearer
token of the response or the Basic credentials, and `apiVersion`) whatever the
base header mapping has under those names. -/
theorem result_keys_and_override (Variables : Config) (PostForm : Transport)
    (apiVersion : String) (h : GoMap String)
    (hok : (GetHeaders Variables PostForm apiVersion).result = .returned (some h) none) :
    ∃ base, index Variables "GlobalHeaders" = some (.strMap base) ∧
      (∀ k, k ∈ h.keys ↔ k ∈ base.keys ∨ k = "Authorization" ∨ k = "x-keyfactor-api-version") ∧
      h.get "x-keyfactor-api-version" = some apiVersion ∧
      ((∃ req resp members token,
          index Variables "Auth_Method" = some (.str "oauth") ∧
          req ∈ (GetHeaders Variables PostForm apiVersion).requests ∧
          PostForm req.url req.form = .ok resp ∧
          resp.Body = .ok (.obj members) ∧
          Json.member members "access_token" = some (.str token) ∧
          h.get "Authorization" = some ("Bearer " ++ token)) ∨
       (∃ u p,
          index Variables "Auth_Method" = some (.str "basic") ∧
          index Variables "keyfactorUser" = some (.str u) ∧
          index Variables "keyfactorPassword" = some (.str p) ∧
          h.get "Authorization" = some ("Basic " ++ base64Std (bytes (u ++ ":" ++ p))))) := by
  obtain ⟨base, hg, hcase⟩ := GetHeaders_success_inv _ _ _ _ hok
  refine ⟨base, hg, ?_⟩
  rcases hcase with ⟨cid, secret, url, resp, members, token, hm, hc, hs, hu, hresp, -, hbody,
    ht, rfl⟩ | ⟨u, p, hm, hu, hp, rfl⟩
  · refine ⟨fun k => buildHeaders_keys _ _ _ k, buildHeaders_version _ _ _, Or.inl ?_⟩
    refine ⟨⟨url, "application/x-www-form-urlencoded", authBody Variables cid secret⟩, resp,
      members, token, hm, ?_, hresp, hbody, ht, buildHeaders_authorization _ _ _⟩
    rw [GetHeaders_oauth_requests _ PostForm apiVersion cid secret url hm hc hs hu]
    exact List.mem_singleton.2 rfl
  · refine ⟨fun k => buildHeaders_keys _ _ _ k, buildHeaders_version _ _ _, Or.inr ?_⟩
    exact ⟨u, p, hm, hu, hp, by rw [buildHeaders_authorization, EncodeToString_bytes]⟩

/-- The key-set property at a Basic call whose base mapping has an `Authorization` entry. -/
theorem result_keys_and_override_witness :
    (GetHeaders (basicConfig clashHeaders) offline "2").result
      = .returned (some clashResult) none ∧
    ∃ base, index (basicConfig clashHeaders) "GlobalHeaders" = some (.strMap base) ∧
      (∀ k, k ∈ clashResult.keys ↔
        k ∈ base.keys ∨ k = "Authorization" ∨ k = "x-keyfactor-api-version") ∧
      clashResult.get "x-keyfactor-api-version" = some "2" ∧
      ((∃ req resp members token,
          index (basicConfig clashHeaders) "Auth_Method" = some (.str "oauth") ∧
          req ∈ (GetHeaders (basicConfig clashHeaders) offline "2").requests ∧
          offline req.url req.form = .ok resp ∧
          resp.Body = .ok (.obj members) ∧
          Json.member members "access_token" = some (.str token) ∧
          clashResult.get "Authorization" = some ("Bearer " ++ token)) ∨
       (∃ u p,
          index (basicConfig clashHeaders) "Auth_Method" = some (.str "basic") ∧
          index (basicConfig clashHeaders) "keyfactorUser" = some (.str u) ∧
          index (basicConfig clashHeaders) "keyfactorPassword" = some (.str p) ∧
          clashResult.get "Authorization" = some ("Basic " ++ base64Std (bytes (u ++ ":" ++ p))))) :=
  ⟨rfl, result_keys_and_override (basicConfig clashHeaders) offline "2" clashResult rfl⟩

end Keyfactor
